import Mathlib

/-!
Shallow embedding of the Masters Tournament backend (`main.py`).

The SQLite database is modelled as a `DB` structure holding the three
tables (`tournaments`, `golfers`, `admin_logs`) as lists kept in rowid
(= insertion) order, together with the AUTOINCREMENT counters.  SQL
`TIMESTAMP` values are opaque strings supplied as a `now` parameter.
Each HTTP endpoint is a function from its inputs and the current `DB`
to a pair of a result (`Except HTTPErr α`, errors modelling raised
`HTTPException`s) and the `DB` after the request; a raised exception
leaves the database unchanged (the connection is closed or dropped
without a commit).
-/

/-- A row of the `tournaments` table. -/
structure TournamentRow where
  id : Nat
  year : Int
  winner : String
  score : Int
  toPar : Int
  nationality : String
  createdAt : String
  updatedAt : String
deriving DecidableEq, Repr

/-- A row of the `golfers` table.  `bio`, `total_majors`, `turned_pro`
and `nationality` are nullable columns. -/
structure GolferRow where
  id : Nat
  name : String
  bio : Option String
  totalMajors : Option Int
  turnedPro : Option Int
  nationality : Option String
  createdAt : String
  updatedAt : String
deriving DecidableEq, Repr

/-- A row of the `admin_logs` table. -/
structure LogRow where
  action : String
  details : String
  timestamp : String
deriving DecidableEq, Repr

/-- The database state: the three tables in rowid order plus the
AUTOINCREMENT counters of `tournaments` and `golfers`. -/
structure DB where
  tournaments : List TournamentRow
  golfers : List GolferRow
  adminLogs : List LogRow
  nextTid : Nat
  nextGid : Nat
deriving DecidableEq, Repr

/-- Errors raised as `HTTPException`. -/
inductive HTTPErr where
  | notFound (detail : String)
  | unauthorized
  | internal (detail : String)
deriving DecidableEq, Repr

deriving instance DecidableEq for Except

def emptyDB : DB := ⟨[], [], [], 1, 1⟩

/-- The five content fields of a tournament row (everything except the
surrogate id and the timestamps). -/
def projT (r : TournamentRow) : Int × String × Int × Int × String :=
  (r.year, r.winner, r.score, r.toPar, r.nationality)

/-- The five content fields of a golfer row (everything except the
surrogate id and the timestamps). -/
def projG (g : GolferRow) : String × Option String × Option Int × Option Int × Option String :=
  (g.name, g.bio, g.totalMajors, g.turnedPro, g.nationality)

/-! ### Authentication (`verify_admin`)

`verify_admin` compares the supplied username with `ADMIN_USERNAME` and
the SHA-256 hex digest of the supplied password with
`ADMIN_PASSWORD_HASH = sha256(ADMIN_PASSWORD)`.  The hash function is an
abstract parameter `hash`; the code's check is exactly
`username = ADMIN_USERNAME ∧ hash password = hash ADMIN_PASSWORD`. -/

def ADMIN_USERNAME : String := "admin"

def ADMIN_PASSWORD : String := "masters2024!"

structure Credentials where
  username : String
  password : String
deriving DecidableEq, Repr

def verify_admin (hash : String → String) (c : Credentials) : Bool :=
  c.username = ADMIN_USERNAME && hash c.password = hash ADMIN_PASSWORD

/-- `log_admin_action` appends a row to `admin_logs` on its own
connection. -/
def log_admin_action (now : String) (action details : String) (db : DB) : DB :=
  { db with adminLogs := db.adminLogs ++ [⟨action, details, now⟩] }

/-! ### Query service -/

/-- `SELECT year FROM tournaments WHERE winner = ? ORDER BY year DESC`. -/
def winsOf (db : DB) (name : String) : List Int :=
  List.insertionSort (fun a b => b ≤ a)
    ((db.tournaments.filter (fun r => r.winner = name)).map (fun r => r.year))

/-- Python's `x or y` for a nullable integer `x`: `None` and `0` are
falsy, so they fall through to `y`. -/
def pyOr (x : Option Int) (y : Nat) : Int :=
  match x with
  | none => (y : Int)
  | some m => if m = 0 then (y : Int) else m

structure TournamentResponse where
  id : Nat
  year : Int
  winner : String
  score : Int
  toPar : Int
  nationality : String
  createdAt : String
  updatedAt : String
deriving DecidableEq, Repr

def toTResp (r : TournamentRow) : TournamentResponse :=
  ⟨r.id, r.year, r.winner, r.score, r.toPar, r.nationality, r.createdAt, r.updatedAt⟩

structure GolferResponse where
  id : Nat
  name : String
  bio : Option String
  totalMajors : Option Int
  turnedPro : Option Int
  nationality : Option String
  mastersWins : List Int
  createdAt : String
  updatedAt : String
deriving DecidableEq, Repr

/-- `GET /tournaments/{year}`. -/
def get_tournament_by_year (year : Int) (db : DB) : Except HTTPErr TournamentResponse :=
  match db.tournaments.find? (fun r => r.year = year) with
  | none => .error (.notFound "Tournament not found")
  | some row => .ok (toTResp row)

/-- `GET /golfers/{golfer_name}`.  When the name has no golfer row the
code checks the tournament winners and, on a hit, continues with the
synthesized tuple `(None, name, None, 0, None, None, None, None)`; the
response then applies `row[0] or 0`, `row[3] or len(wins)`,
`row[6] or ""`, `row[7] or ""`. -/
def get_golfer_by_name (golfer_name : String) (db : DB) : Except HTTPErr GolferResponse :=
  let wins := winsOf db golfer_name
  match db.golfers.find? (fun g => g.name = golfer_name) with
  | some row =>
      .ok ⟨row.id, row.name, row.bio, some (pyOr row.totalMajors wins.length),
           row.turnedPro, row.nationality, wins, row.createdAt, row.updatedAt⟩
  | none =>
      if db.tournaments.any (fun r => r.winner = golfer_name) then
        .ok ⟨0, golfer_name, none, some (pyOr (some 0) wins.length),
             none, none, wins, "", ""⟩
      else
        .error (.notFound "Golfer not found")

/-! ### `GET /search`: Python `int()` parsing and SQLite `LIKE` -/

def isPyWs (c : Char) : Bool :=
  c = ' ' || c = '\t' || c = '\n' || c = '\x0d' || c = '\x0b' || c = '\x0c'

def stripWs (l : List Char) : List Char :=
  ((l.dropWhile isPyWs).reverse.dropWhile isPyWs).reverse

/-- No two consecutive underscores. -/
def noDoubleUnderscore : List Char → Bool
  | [] => true
  | [_] => true
  | a :: b :: rest => !(a = '_' && b = '_') && noDoubleUnderscore (b :: rest)

/-- A valid Python integer-literal body: ASCII digits with single
underscores strictly between digits (Unicode digits are not modelled). -/
def pyDigitsOk (l : List Char) : Bool :=
  !l.isEmpty
    && (l.head?.getD '_').isDigit
    && (l.getLast?.getD '_').isDigit
    && l.all (fun c => c.isDigit || c = '_')
    && noDoubleUnderscore l

def digitsVal (l : List Char) : Nat :=
  (l.filter (fun c => c ≠ '_')).foldl (fun a c => 10 * a + (c.toNat - 48)) 0

def parseBody (l : List Char) : Option Nat :=
  if pyDigitsOk l then some (digitsVal l) else none

/-- Python `int(q)`: optional surrounding whitespace, optional sign,
then a digit body; `None` models a raised `ValueError`. -/
def pyIntParse (s : String) : Option Int :=
  match stripWs s.toList with
  | '+' :: rest => (parseBody rest).map (fun n => (n : Int))
  | '-' :: rest => (parseBody rest).map (fun n => -(n : Int))
  | rest => (parseBody rest).map (fun n => (n : Int))

/-- Fuel-based worker for SQLite `LIKE` matching (each step shrinks
`pattern.length + text.length`, so any fuel above that bound computes
the match; the fuel keeps the recursion structural). -/
def likeMatchF : Nat → List Char → List Char → Bool
  | 0, _, _ => false
  | _ + 1, [], t => t.isEmpty
  | f + 1, p :: ps, [] => if p = '%' then likeMatchF f ps [] else false
  | f + 1, p :: ps, c :: ts =>
      if p = '%' then likeMatchF f ps (c :: ts) || likeMatchF f (p :: ps) ts
      else (if p = '_' then true else p.toLower = c.toLower) && likeMatchF f ps ts

/-- SQLite `LIKE` matching of a pattern against a text: `%` matches any
sequence, `_` any single character, and letter comparison folds ASCII
`A`–`Z` to lower case (SQLite's default, ASCII-only case folding,
which is exactly `Char.toLower`). -/
def likeMatch (p t : List Char) : Bool :=
  likeMatchF (p.length + t.length + 1) p t

/-- The pattern `'%' + q + '%'` built by the search endpoint. -/
def likePattern (q : String) : List Char :=
  '%' :: (q.toList ++ ['%'])

def likeContains (q s : String) : Bool :=
  likeMatch (likePattern q) s.toList

/-- `GET /search?q=...`: `int(q)` succeeding selects the exact-year
branch (no ORDER BY); a `ValueError` falls through to
`WHERE winner LIKE '%q%' ORDER BY year DESC`. -/
def search_tournaments (q : String) (db : DB) : List TournamentResponse :=
  match pyIntParse q with
  | some y => (db.tournaments.filter (fun r => r.year = y)).map toTResp
  | none =>
      (List.insertionSort (fun a b => b.year ≤ a.year)
        (db.tournaments.filter (fun r => likeContains q r.winner))).map toTResp

/-! ### `GET /stats` -/

structure Stats where
  totalYears : Nat
  uniqueWinners : Nat
  bestScore : Option Int
  mostWins : Nat
  mostWinsGolfer : String
deriving DecidableEq, Repr

/-- `GROUP BY winner ORDER BY wins DESC LIMIT 1`, `fetchone`: `none`
exactly when the table is empty.  SQLite's group order is unspecified;
the model breaks count ties by first encounter. -/
def mostWinsRow (db : DB) : Option (String × Nat) :=
  let ws := db.tournaments.map (fun r => r.winner)
  (ws.dedup.map (fun n => (n, ws.count n))).foldl
    (fun acc p =>
      match acc with
      | none => some p
      | some best => if best.2 < p.2 then some p else some best)
    none

/-- `GET /stats`.  `SELECT MIN(score)` over an empty table yields SQL
NULL, i.e. `none`. -/
def get_tournament_stats (db : DB) : Stats :=
  { totalYears := db.tournaments.length
    uniqueWinners := (db.tournaments.map (fun r => r.winner)).dedup.length
    bestScore := (db.tournaments.map (fun r => r.score)).min?
    mostWins := ((mostWinsRow db).map (fun p => p.2)).getD 0
    mostWinsGolfer := ((mostWinsRow db).map (fun p => p.1)).getD "" }

/-! ### Seeding (`insert_initial_data`, `load_from_json`, `init_database`)

A JSON record is modelled by the values the Python code extracts from
its dict: a `none` field stands for a missing key or an explicit JSON
null.  For a tournament all five fields are required (a missing key
raises `KeyError`, a null value violates the column's NOT NULL
constraint — either way the record raises); for a golfer only `name`
is required.  Errors (`Except.error ()`) model a raised exception; a
run that raises is never committed. -/

structure JTournament where
  year : Option Int
  winner : Option String
  score : Option Int
  toPar : Option Int
  nationality : Option String
deriving DecidableEq, Repr

structure JGolfer where
  name : Option String
  bio : Option String
  totalMajors : Option Int
  turnedPro : Option Int
  nationality : Option String
deriving DecidableEq, Repr

/-- The parsed shape of `masters_data.json`. -/
structure MastersData where
  tournaments : List JTournament
  golfers : List JGolfer
deriving DecidableEq, Repr

/-- The state of the `masters_data.json` file when it exists:
`json.load` either raises or yields a `MastersData`. -/
inductive FileContent where
  | unparseable
  | parsed (d : MastersData)
deriving DecidableEq, Repr

/-- `INSERT OR REPLACE INTO tournaments`: delete any row with the same
`year`, then insert a fresh row (new rowid, at the end). -/
def iorTournament (now : String) (db : DB) (y : Int) (w : String) (s p : Int)
    (n : String) : DB :=
  { db with
      tournaments :=
        db.tournaments.filter (fun r => r.year ≠ y)
          ++ [⟨db.nextTid, y, w, s, p, n, now, now⟩]
      nextTid := db.nextTid + 1 }

/-- `INSERT OR REPLACE INTO golfers`, keyed by `name`. -/
def iorGolfer (now : String) (db : DB) (nm : String) (bio : Option String)
    (tm : Option Int) (tp : Option Int) (nat : Option String) : DB :=
  { db with
      golfers :=
        db.golfers.filter (fun g => g.name ≠ nm)
          ++ [⟨db.nextGid, nm, bio, tm, tp, nat, now, now⟩]
      nextGid := db.nextGid + 1 }

/-- Plain `INSERT INTO tournaments`: raises on a UNIQUE-year conflict. -/
def plainInsTournament (now : String) (db : DB) (y : Int) (w : String)
    (s p : Int) (n : String) : Except Unit DB :=
  if db.tournaments.any (fun r => r.year = y) then .error ()
  else
    .ok { db with
            tournaments := db.tournaments ++ [⟨db.nextTid, y, w, s, p, n, now, now⟩]
            nextTid := db.nextTid + 1 }

/-- Plain `INSERT INTO golfers`: raises on a UNIQUE-name conflict. -/
def plainInsGolfer (now : String) (db : DB) (nm : String) (bio : Option String)
    (tm : Option Int) (tp : Option Int) (nat : Option String) : Except Unit DB :=
  if db.golfers.any (fun g => g.name = nm) then .error ()
  else
    .ok { db with
            golfers := db.golfers ++ [⟨db.nextGid, nm, bio, tm, tp, nat, now, now⟩]
            nextGid := db.nextGid + 1 }

/-- Processing one tournament record of the JSON file: extract the five
required fields (raising if one is missing/null) and
`INSERT OR REPLACE`. -/
def insJTournament (now : String) (db : DB) (j : JTournament) : Except Unit DB :=
  match j.year, j.winner, j.score, j.toPar, j.nationality with
  | some y, some w, some s, some p, some n => .ok (iorTournament now db y w s p n)
  | _, _, _, _, _ => .error ()

/-- Processing one golfer record of the JSON file: `name` is required,
the other fields default to null (`total_majors` to `0` when the key is
absent, which the record model already resolves). -/
def insJGolfer (now : String) (db : DB) (j : JGolfer) : Except Unit DB :=
  match j.name with
  | some nm => .ok (iorGolfer now db nm j.bio j.totalMajors j.turnedPro j.nationality)
  | none => .error ()

/-- Run the per-record steps in order; the first raising record aborts
the batch, and the error carries the partial state accumulated so far
(those inserts already sit on the shared cursor). -/
def seedFold (step : DB → α → Except Unit DB) : List α → DB → Except DB DB
  | [], db => .ok db
  | x :: xs, db =>
      match step db x with
      | .ok db' => seedFold step xs db'
      | .error _ => .error db

/-- The built-in fallback dataset of `insert_initial_data`. -/
def defaultTournaments : List (Int × String × Int × Int × String) :=
  [(2024, "Scottie Scheffler", 277, -11, "USA"),
   (2023, "Jon Rahm", 276, -12, "ESP"),
   (2022, "Scottie Scheffler", 278, -10, "USA"),
   (2021, "Hideki Matsuyama", 278, -10, "JPN"),
   (2020, "Dustin Johnson", 268, -20, "USA"),
   (2019, "Tiger Woods", 275, -13, "USA"),
   (2018, "Patrick Reed", 273, -15, "USA"),
   (2017, "Sergio García", 279, -9, "ESP"),
   (2016, "Danny Willett", 283, -5, "ENG"),
   (2015, "Jordan Spieth", 270, -18, "USA")]

def defaultGolfers : List (String × String × Int × Int × String) :=
  [("Tiger Woods", "Tiger Woods is one of the greatest golfers of all time, with 15 major championships including 5 Masters titles.", 15, 1996, "USA"),
   ("Scottie Scheffler", "Scottie Scheffler has emerged as one of golf's brightest stars, becoming the world's #1 ranked player.", 2, 2018, "USA")]

/-- `insert_initial_data`: plain `INSERT`s (`executemany`) of the
built-in dataset; a UNIQUE conflict raises out of the function. -/
def insert_initial_data (now : String) (db : DB) : Except Unit DB :=
  match seedFold
      (fun db t => plainInsTournament now db t.1 t.2.1 t.2.2.1 t.2.2.2.1 t.2.2.2.2)
      defaultTournaments db with
  | .error _ => .error ()
  | .ok db1 =>
      match seedFold
          (fun db g => plainInsGolfer now db g.1 (some g.2.1) (some g.2.2.1)
            (some g.2.2.2.1) (some g.2.2.2.2))
          defaultGolfers db1 with
      | .error _ => .error ()
      | .ok db2 => .ok db2

/-- `load_from_json`, called with the file present: everything runs
under one `try`; a parse failure, or the first failing record, jumps to
the `except` block, which runs `insert_initial_data` on the same cursor
(on top of any partial inserts).  An exception raised by that fallback
propagates to the caller. -/
def load_from_json (now : String) (f : FileContent) (db : DB) : Except Unit DB :=
  match f with
  | .unparseable => insert_initial_data now db
  | .parsed d =>
      match seedFold (insJTournament now) d.tournaments db with
      | .error dbp => insert_initial_data now dbp
      | .ok db1 =>
          match seedFold (insJGolfer now) d.golfers db1 with
          | .error dbp => insert_initial_data now dbp
          | .ok db2 => .ok db2

/-- `init_database` (table creation elided: the model starts from the
already-created tables).  Seeds only when the tournament table is
empty: from the file when `masters_data.json` exists, else the built-in
dataset; an escaping exception aborts startup. -/
def init_database (now : String) (file : Option FileContent) (db : DB) : Except Unit DB :=
  if db.tournaments.isEmpty then
    match file with
    | some f => load_from_json now f db
    | none => insert_initial_data now db
  else .ok db

/-! ### Admin endpoints -/

/-- The body of `POST /admin/tournaments` (all fields required). -/
structure Tournament where
  year : Int
  winner : String
  score : Int
  toPar : Int
  nationality : String
deriving DecidableEq, Repr

/-- The body of `POST /admin/golfers` (`name` required, the rest
nullable; `total_majors` defaults to `0` when absent). -/
structure Golfer where
  name : String
  bio : Option String
  totalMajors : Option Int
  turnedPro : Option Int
  nationality : Option String
deriving DecidableEq, Repr

def tournamentDetail (t : Tournament) : String :=
  "Tournament " ++ toString t.year ++ ": " ++ t.winner ++ " (" ++ toString t.score
    ++ ", " ++ toString t.toPar ++ ")"

/-- The column assignments of the tournament `UPDATE ... WHERE year = ?`
statement. -/
def updTRow (t : Tournament) (now : String) (r : TournamentRow) : TournamentRow :=
  { r with winner := t.winner, score := t.score, toPar := t.toPar,
           nationality := t.nationality, updatedAt := now }

/-- The row created by the tournament `INSERT` statement. -/
def newTRow (t : Tournament) (now : String) (id : Nat) : TournamentRow :=
  ⟨id, t.year, t.winner, t.score, t.toPar, t.nationality, now, now⟩

/-- The tournament table after the upsert's UPDATE-or-INSERT branch. -/
def updTournaments (t : Tournament) (now : String) (db : DB) : List TournamentRow :=
  if db.tournaments.any (fun r => r.year = t.year) then
    db.tournaments.map (fun r => if r.year = t.year then updTRow t now r else r)
  else
    db.tournaments ++ [newTRow t now db.nextTid]

/-- `POST /admin/tournaments`: credential gate, then replace-or-insert
keyed by `year`, re-select the row, commit, log the action, and return
the row. -/
def add_tournament (hash : String → String) (c : Credentials) (t : Tournament)
    (now : String) (db : DB) : Except HTTPErr TournamentResponse × DB :=
  if verify_admin hash c then
    let existing := db.tournaments.any (fun r => r.year = t.year)
    let ts' := updTournaments t now db
    let action := if existing then "UPDATE" else "INSERT"
    let db' := { db with
                   tournaments := ts'
                   nextTid := if existing then db.nextTid else db.nextTid + 1 }
    let db'' := log_admin_action now action (tournamentDetail t) db'
    match ts'.find? (fun r => r.year = t.year) with
    | some row => (.ok (toTResp row), db'')
    | none => (.error (.internal "row vanished"), db'')
  else (.error .unauthorized, db)

/-- The column assignments of the golfer `UPDATE ... WHERE name = ?`
statement. -/
def updGRow (g : Golfer) (now : String) (r : GolferRow) : GolferRow :=
  { r with bio := g.bio, totalMajors := g.totalMajors,
           turnedPro := g.turnedPro, nationality := g.nationality,
           updatedAt := now }

/-- The row created by the golfer `INSERT` statement. -/
def newGRow (g : Golfer) (now : String) (id : Nat) : GolferRow :=
  ⟨id, g.name, g.bio, g.totalMajors, g.turnedPro, g.nationality, now, now⟩

/-- The golfer table after the upsert's UPDATE-or-INSERT branch. -/
def updGolfers (g : Golfer) (now : String) (db : DB) : List GolferRow :=
  if db.golfers.any (fun r => r.name = g.name) then
    db.golfers.map (fun r => if r.name = g.name then updGRow g now r else r)
  else
    db.golfers ++ [newGRow g now db.nextGid]

/-- `POST /admin/golfers`: credential gate, then replace-or-insert
keyed by `name`; the response reports the raw row plus the derived
wins list. -/
def add_or_update_golfer (hash : String → String) (c : Credentials) (g : Golfer)
    (now : String) (db : DB) : Except HTTPErr GolferResponse × DB :=
  if verify_admin hash c then
    let existing := db.golfers.any (fun r => r.name = g.name)
    let gs' := updGolfers g now db
    let action := if existing then "UPDATE" else "INSERT"
    let wins := winsOf db g.name
    let db' := { db with
                   golfers := gs'
                   nextGid := if existing then db.nextGid else db.nextGid + 1 }
    let db'' := log_admin_action now action ("Golfer: " ++ g.name) db'
    match gs'.find? (fun r => r.name = g.name) with
    | some row =>
        (.ok ⟨row.id, row.name, row.bio, row.totalMajors, row.turnedPro,
              row.nationality, wins, row.createdAt, row.updatedAt⟩, db'')
    | none => (.error (.internal "row vanished"), db'')
  else (.error .unauthorized, db)

/-- `DELETE /admin/tournaments/{year}`. -/
def delete_tournament (hash : String → String) (c : Credentials) (year : Int)
    (now : String) (db : DB) : Except HTTPErr String × DB :=
  if verify_admin hash c then
    match db.tournaments.find? (fun r => r.year = year) with
    | none => (.error (.notFound "Tournament not found"), db)
    | some row =>
        let db' := { db with tournaments := db.tournaments.filter (fun r => r.year ≠ year) }
        let db'' := log_admin_action now "DELETE"
          ("Tournament " ++ toString year ++ ": " ++ row.winner) db'
        (.ok ("Tournament " ++ toString year ++ " deleted successfully"), db'')
  else (.error .unauthorized, db)

/-- The JSON object exported for one tournament row. -/
def toJT (r : TournamentRow) : JTournament :=
  ⟨some r.year, some r.winner, some r.score, some r.toPar, some r.nationality⟩

/-- The JSON object exported for one golfer row. -/
def toJG (g : GolferRow) : JGolfer :=
  ⟨some g.name, g.bio, g.totalMajors, g.turnedPro, g.nationality⟩

/-- The structured payload built by `GET /admin/export-data`:
tournaments ordered by year descending, golfers ordered by name,
surrogate ids and timestamps excluded. -/
def exportPayload (db : DB) : MastersData :=
  { tournaments :=
      (List.insertionSort (fun a b => b.year ≤ a.year) db.tournaments).map toJT
    golfers :=
      (List.insertionSort (fun a b => a.name ≤ b.name) db.golfers).map toJG }

def exportDetail (db : DB) : String :=
  "Exported " ++ toString db.tournaments.length ++ " tournaments and "
    ++ toString db.golfers.length ++ " golfers"

/-- `GET /admin/export-data`: reads both tables, logs `EXPORT_DATA`,
and returns the payload; no table is written. -/
def export_data_to_json (hash : String → String) (c : Credentials) (now : String)
    (db : DB) : Except HTTPErr MastersData × DB :=
  if verify_admin hash c then
    (.ok (exportPayload db), log_admin_action now "EXPORT_DATA" (exportDetail db) db)
  else (.error .unauthorized, db)

/-- `DELETE FROM tournaments; DELETE FROM golfers` on the reload
connection. -/
def clearTables (db : DB) : DB :=
  { db with tournaments := [], golfers := [] }

/-- `POST /admin/reload-data`: 404 when the file is absent; otherwise
`DELETE FROM tournaments`, `DELETE FROM golfers`, `load_from_json`,
commit and log `RELOAD_DATA`; an exception escaping the `try` becomes a
500 and nothing is committed. -/
def reload_data_from_json (hash : String → String) (c : Credentials) (now : String)
    (file : Option FileContent) (db : DB) : Except HTTPErr String × DB :=
  if verify_admin hash c then
    match file with
    | none => (.error (.notFound "masters_data.json file not found"), db)
    | some f =>
        match load_from_json now f (clearTables db) with
        | .ok db' =>
            (.ok "Data successfully reloaded from masters_data.json",
             log_admin_action now "RELOAD_DATA" "Reloaded all data from masters_data.json" db')
        | .error _ => (.error (.internal "Error reloading data"), db)
  else (.error .unauthorized, db)

/-- `GET /admin/logs`: the most recent 100 entries, newest first
(timestamps are non-decreasing in insertion order, so `ORDER BY
timestamp DESC` is modelled as reverse insertion order). -/
def get_admin_logs (hash : String → String) (c : Credentials) (db : DB) :
    Except HTTPErr (List LogRow) × DB :=
  if verify_admin hash c then (.ok (db.adminLogs.reverse.take 100), db)
  else (.error .unauthorized, db)

/-! ### Concrete fixtures used by closed-form theorems -/

/-- A stand-in hash function for concrete runs (any function works for
the model; collisions are not exercised). -/
def hashId : String → String := fun s => s

def goodCreds : Credentials := ⟨"admin", "masters2024!"⟩

def badCreds : Credentials := ⟨"admin", "wrong-password"⟩

/-- A database holding exactly the 2019 tournament won by Tiger Woods. -/
def dbTiger : DB :=
  ⟨[⟨1, 2019, "Tiger Woods", 275, -13, "USA", "t0", "t0"⟩], [], [], 2, 1⟩

/-- A golfer upsert body submitting `total_majors = 0`. -/
def gZeroMajors : Golfer := ⟨"Tiger Woods", none, some 0, none, none⟩

/-- A tournament record whose `winner` key is missing: processing it
raises. -/
def badRecord : JTournament := ⟨some 2024, none, some 1, some 1, some "x"⟩

/-- A well-formed record for year 2024 (a year also in the built-in
default data). -/
def rec2024 : JTournament := ⟨some 2024, some "W", some 1, some 1, some "x"⟩

/-- A well-formed record for year 9999 (a year not in the built-in
default data). -/
def rec9999 : JTournament := ⟨some 9999, some "Z", some 2, some 2, some "y"⟩

/-- A parseable file whose second record raises after year 2024 was
already inserted: the fallback's plain `INSERT` of the default 2024 row
then conflicts. -/
def fileConflict : MastersData := ⟨[rec2024, badRecord], []⟩

/-- A parseable file whose first record raises; the well-formed 9999
record after it is in the aborted remainder of the batch. -/
def fileAborted : MastersData := ⟨[badRecord, rec9999], []⟩

/-- The partial state left on the cursor after `rec2024` was inserted
into an empty database. -/
def dbPartial : DB :=
  ⟨[⟨1, 2024, "W", 1, 1, "x", "t0", "t0"⟩], [], [], 2, 1⟩

def defaultGolfersProj :
    List (String × Option String × Option Int × Option Int × Option String) :=
  defaultGolfers.map (fun g => (g.1, some g.2.1, some g.2.2.1, some g.2.2.2.1, some g.2.2.2.2))

/-! ### Substring predicates used to compare `LIKE` with the spec wording -/

/-- Case-insensitive "starts with" on character lists (ASCII folding,
matching SQLite's `LIKE` on wildcard-free patterns). -/
def startsWithCI : List Char → List Char → Bool
  | [], _ => true
  | _ :: _, [] => false
  | a :: as, b :: bs => (a.toLower = b.toLower) && startsWithCI as bs

/-- Case-insensitive "occurs as a contiguous substring". -/
def subCI (n : List Char) : List Char → Bool
  | [] => n.isEmpty
  | c :: ts => startsWithCI n (c :: ts) || subCI n ts

/-- Case-sensitive "starts with" on character lists. -/
def startsWithCS : List Char → List Char → Bool
  | [], _ => true
  | _ :: _, [] => false
  | a :: as, b :: bs => (a = b) && startsWithCS as bs

/-- Case-sensitive "occurs as a contiguous substring". -/
def subCS (n : List Char) : List Char → Bool
  | [] => n.isEmpty
  | c :: ts => startsWithCS n (c :: ts) || subCS n ts

/-- "The winner name contains the input as a substring", read literally
(case-sensitively), as the spec sentence states it. -/
def containsSub (needle hay : String) : Bool :=
  subCS needle.toList hay.toList

/-- ASCII-case-insensitive substring containment. -/
def containsSubCI (needle hay : String) : Bool :=
  subCI needle.toList hay.toList

/-- A pattern fragment with no `LIKE` metacharacters. -/
def plainChars (l : List Char) : Prop :=
  ∀ c ∈ l, c ≠ '%' ∧ c ≠ '_'

/-! ## Helper lemmas -/

/-- `likeMatchF` is fuel-independent once the fuel exceeds
`pattern.length + text.length`. -/
theorem likeMatchF_congr :
    ∀ (f g : Nat) (p t : List Char), p.length + t.length < f →
      p.length + t.length < g → likeMatchF f p t = likeMatchF g p t := by
  intro f
  induction f with
  | zero => intro g p t h1 _; omega
  | succ f ih =>
      intro g p t h1 h2
      match g, p, t with
      | g + 1, [], t => rfl
      | g + 1, p :: ps, [] =>
          simp only [List.length_cons, List.length_nil] at h1 h2
          simp only [likeMatchF]
          have e : likeMatchF f ps [] = likeMatchF g ps [] :=
            ih g ps [] (by simp only [List.length_nil]; omega)
              (by simp only [List.length_nil]; omega)
          rw [e]
      | g + 1, p :: ps, c :: ts =>
          simp only [List.length_cons] at h1 h2
          simp only [likeMatchF]
          have e1 : likeMatchF f ps (c :: ts) = likeMatchF g ps (c :: ts) :=
            ih g ps (c :: ts) (by simp only [List.length_cons]; omega)
              (by simp only [List.length_cons]; omega)
          have e2 : likeMatchF f (p :: ps) ts = likeMatchF g (p :: ps) ts :=
            ih g (p :: ps) ts (by simp only [List.length_cons]; omega)
              (by simp only [List.length_cons]; omega)
          have e3 : likeMatchF f ps ts = likeMatchF g ps ts :=
            ih g ps ts (by omega) (by omega)
          rw [e1, e2, e3]

theorem likeMatch_nil (t : List Char) : likeMatch [] t = t.isEmpty := rfl

theorem likeMatch_cons_nil (p : Char) (ps : List Char) :
    likeMatch (p :: ps) [] = if p = '%' then likeMatch ps [] else false := by
  simp only [likeMatch]
  show likeMatchF ((p :: ps).length + ([] : List Char).length + 1) (p :: ps) [] = _
  simp only [likeMatchF]
  have e : likeMatchF ((p :: ps).length + ([] : List Char).length) ps []
      = likeMatchF (ps.length + ([] : List Char).length + 1) ps [] :=
    likeMatchF_congr _ _ ps []
      (by simp only [List.length_cons, List.length_nil]; omega)
      (by simp only [List.length_nil]; omega)
  rw [e]

theorem likeMatch_cons_cons (p : Char) (ps : List Char) (c : Char) (ts : List Char) :
    likeMatch (p :: ps) (c :: ts) =
      if p = '%' then likeMatch ps (c :: ts) || likeMatch (p :: ps) ts
      else (if p = '_' then true else p.toLower = c.toLower) && likeMatch ps ts := by
  simp only [likeMatch]
  show likeMatchF ((p :: ps).length + (c :: ts).length + 1) (p :: ps) (c :: ts) = _
  simp only [likeMatchF]
  have e1 : likeMatchF ((p :: ps).length + (c :: ts).length) ps (c :: ts)
      = likeMatchF (ps.length + (c :: ts).length + 1) ps (c :: ts) :=
    likeMatchF_congr _ _ ps (c :: ts)
      (by simp only [List.length_cons]; omega) (by simp only [List.length_cons]; omega)
  have e2 : likeMatchF ((p :: ps).length + (c :: ts).length) (p :: ps) ts
      = likeMatchF ((p :: ps).length + ts.length + 1) (p :: ps) ts :=
    likeMatchF_congr _ _ (p :: ps) ts
      (by simp only [List.length_cons]; omega) (by simp only [List.length_cons]; omega)
  have e3 : likeMatchF ((p :: ps).length + (c :: ts).length) ps ts
      = likeMatchF (ps.length + ts.length + 1) ps ts :=
    likeMatchF_congr _ _ ps ts
      (by simp only [List.length_cons]; omega) (by omega)
  rw [e1, e2, e3]

theorem likeMatch_pct_nil (t : List Char) : likeMatch ['%'] t = true := by
  induction t with
  | nil => rw [likeMatch_cons_nil]; simp [likeMatch_nil]
  | cons c ts ih => rw [likeMatch_cons_cons]; simp [likeMatch_nil, ih]

theorem likeMatch_plain_append_pct (q : List Char) (hq : plainChars q) :
    ∀ t : List Char, likeMatch (q ++ ['%']) t = startsWithCI q t := by
  induction q with
  | nil => intro t; simpa [startsWithCI] using likeMatch_pct_nil t
  | cons a as ih =>
      intro t
      obtain ⟨ha1, ha2⟩ := hq a (List.mem_cons_self a as)
      have has : plainChars as := fun c hc => hq c (List.mem_cons_of_mem a hc)
      cases t with
      | nil =>
          rw [List.cons_append, likeMatch_cons_nil]
          simp [ha1, startsWithCI]
      | cons c ts =>
          rw [List.cons_append, likeMatch_cons_cons]
          simp [ha1, ha2, startsWithCI, ih has ts]

theorem likeMatch_pct_plain_pct (q : List Char) (hq : plainChars q) :
    ∀ t : List Char, likeMatch ('%' :: (q ++ ['%'])) t = subCI q t := by
  intro t
  induction t with
  | nil =>
      rw [likeMatch_cons_nil]
      cases q with
      | nil => simp [likeMatch_pct_nil, subCI, startsWithCI]
      | cons a as =>
          obtain ⟨ha1, _⟩ := hq a (List.mem_cons_self a as)
          rw [if_pos rfl, List.cons_append, likeMatch_cons_nil]
          simp [ha1, subCI]
  | cons c ts ih =>
      rw [likeMatch_cons_cons, if_pos rfl, likeMatch_plain_append_pct q hq, ih]
      simp [subCI]

/-- For a wildcard-free query `q`, the endpoint's `LIKE '%q%'` test is
exactly ASCII-case-insensitive substring containment. -/
theorem likeContains_eq_containsSubCI (q s : String) (hq : plainChars q.toList) :
    likeContains q s = containsSubCI q s := by
  unfold likeContains likePattern containsSubCI
  exact likeMatch_pct_plain_pct q.toList hq s.toList

/-! ### Keyed-table helpers -/

/-- `find?` through a map that rewrites exactly the rows matching `p`
(and `f` keeps `p` true): the first match of the new table is `f` of
the first match of the old one. -/
theorem find?_map_updateIf {α : Type} (q : α → Prop) [DecidablePred q] (f : α → α)
    (hf : ∀ a, q a → q (f a)) :
    ∀ l : List α,
      (l.map (fun a => if q a then f a else a)).find? (fun a => decide (q a))
        = (l.find? (fun a => decide (q a))).map f := by
  intro l
  induction l with
  | nil => rfl
  | cons a l ih =>
      by_cases hq : q a
      · rw [List.map_cons, if_pos hq,
          List.find?_cons_of_pos _ (by simpa using hf a hq),
          List.find?_cons_of_pos _ (by simpa using hq)]
        rfl
      · rw [List.map_cons, if_neg hq,
          List.find?_cons_of_neg _ (by simpa using hq),
          List.find?_cons_of_neg _ (by simpa using hq), ih]

/-- A map that preserves a key pointwise preserves key-distinctness. -/
theorem pairwise_key_map {α κ : Type} (k : α → κ) (g : α → α)
    (hg : ∀ a, k (g a) = k a) (l : List α)
    (h : l.Pairwise (fun a b => k a ≠ k b)) :
    (l.map g).Pairwise (fun a b => k a ≠ k b) := by
  rw [List.pairwise_map]
  exact h.imp (fun {a b} hab => by rw [hg, hg]; exact hab)

/-- In a key-distinct table at most one row has a given key. -/
theorem filter_key_length_le_one {α κ : Type} [DecidableEq κ] (k : α → κ)
    (l : List α) (hl : l.Pairwise (fun a b => k a ≠ k b)) (y : κ) :
    (l.filter (fun a => k a = y)).length ≤ 1 := by
  induction l with
  | nil => simp
  | cons a l ih =>
      rw [List.pairwise_cons] at hl
      obtain ⟨ha, hl'⟩ := hl
      by_cases hk : k a = y
      · have hnil : l.filter (fun b => k b = y) = [] := by
          rw [List.filter_eq_nil_iff]
          intro b hb
          simp only [decide_eq_true_eq]
          intro hby
          exact ha b hb (hby ▸ hk)
        simp [List.filter_cons, hk, hnil]
      · simp only [List.filter_cons, decide_eq_true_eq, if_neg hk]
        exact ih hl'

/-- A table containing a row with key `y` has at least one such row. -/
theorem filter_key_length_pos {α κ : Type} [DecidableEq κ] (k : α → κ)
    (l : List α) (y : κ) (h : ∃ a ∈ l, k a = y) :
    1 ≤ (l.filter (fun a => k a = y)).length := by
  obtain ⟨a, ha, hk⟩ := h
  have : a ∈ l.filter (fun a => k a = y) := by
    rw [List.mem_filter]
    exact ⟨ha, by simpa using hk⟩
  calc 1 ≤ 1 := le_refl 1
    _ ≤ (l.filter (fun a => k a = y)).length := List.length_pos.mpr (by
        intro hnil
        rw [hnil] at this
        exact List.not_mem_nil a this)

/-! ### Seeding helpers -/

/-- `seedFold` processes an appended batch in two stages. -/
theorem seedFold_append {α : Type} (step : DB → α → Except Unit DB)
    (l1 l2 : List α) (db : DB) :
    seedFold step (l1 ++ l2) db =
      match seedFold step l1 db with
      | .ok d => seedFold step l2 d
      | .error d => .error d := by
  induction l1 generalizing db with
  | nil => simp [seedFold]
  | cons x xs ih =>
      simp only [List.cons_append, seedFold]
      cases step db x with
      | ok d => exact ih d
      | error e => rfl

/-- Loading exported tournament records over a table whose years avoid
them: every record is well-formed, each `INSERT OR REPLACE` deletes
nothing, and the rows land in order with their five content fields
intact.  Golfers, logs and the golfer counter are untouched. -/
theorem seedFold_toJT (now : String) :
    ∀ (src : List TournamentRow) (db : DB),
      src.Pairwise (fun a b => a.year ≠ b.year) →
      (∀ r ∈ db.tournaments, ∀ s ∈ src, r.year ≠ s.year) →
      ∃ dbr, seedFold (insJTournament now) (src.map toJT) db = .ok dbr
        ∧ dbr.tournaments.map projT = db.tournaments.map projT ++ src.map projT
        ∧ dbr.golfers = db.golfers
        ∧ dbr.adminLogs = db.adminLogs
        ∧ dbr.nextGid = db.nextGid := by
  intro src
  induction src with
  | nil => intro db _ _; exact ⟨db, rfl, by simp, rfl, rfl, rfl⟩
  | cons s rest ih =>
      intro db hpw hdisj
      rw [List.pairwise_cons] at hpw
      obtain ⟨hs, hrest⟩ := hpw
      have hfid : db.tournaments.filter (fun r => r.year ≠ s.year) = db.tournaments := by
        rw [List.filter_eq_self]
        intro r hr
        simpa using hdisj r hr s (List.mem_cons_self s rest)
      have hdisj1 :
          ∀ r ∈ (iorTournament now db s.year s.winner s.score s.toPar s.nationality).tournaments,
            ∀ t ∈ rest, r.year ≠ t.year := by
        intro r hr t ht
        simp only [iorTournament, hfid, List.mem_append, List.mem_singleton] at hr
        rcases hr with hr | hr
        · exact hdisj r hr t (List.mem_cons_of_mem s ht)
        · rw [hr]
          exact hs t ht
      obtain ⟨dbr, h1, h2, h3, h4, h5⟩ :=
        ih (iorTournament now db s.year s.winner s.score s.toPar s.nationality) hrest hdisj1
      have hior : (iorTournament now db s.year s.winner s.score s.toPar s.nationality).tournaments
          = db.tournaments
            ++ [⟨db.nextTid, s.year, s.winner, s.score, s.toPar, s.nationality, now, now⟩] := by
        simp only [iorTournament]
        rw [hfid]
      refine ⟨dbr, ?_, ?_, ?_, ?_, ?_⟩
      · simpa only [List.map_cons, seedFold, insJTournament] using h1
      · rw [h2, hior]
        simp [projT]
      · rw [h3]; rfl
      · rw [h4]; rfl
      · rw [h5]; rfl

/-- The golfer analogue of `seedFold_toJT`, keyed by name; tournaments,
logs and the tournament counter are untouched. -/
theorem seedFold_toJG (now : String) :
    ∀ (src : List GolferRow) (db : DB),
      src.Pairwise (fun a b => a.name ≠ b.name) →
      (∀ r ∈ db.golfers, ∀ s ∈ src, r.name ≠ s.name) →
      ∃ dbr, seedFold (insJGolfer now) (src.map toJG) db = .ok dbr
        ∧ dbr.golfers.map projG = db.golfers.map projG ++ src.map projG
        ∧ dbr.tournaments = db.tournaments
        ∧ dbr.adminLogs = db.adminLogs
        ∧ dbr.nextTid = db.nextTid := by
  intro src
  induction src with
  | nil => intro db _ _; exact ⟨db, rfl, by simp, rfl, rfl, rfl⟩
  | cons s rest ih =>
      intro db hpw hdisj
      rw [List.pairwise_cons] at hpw
      obtain ⟨hs, hrest⟩ := hpw
      have hfid : db.golfers.filter (fun r => r.name ≠ s.name) = db.golfers := by
        rw [List.filter_eq_self]
        intro r hr
        simpa using hdisj r hr s (List.mem_cons_self s rest)
      have hdisj1 :
          ∀ r ∈ (iorGolfer now db s.name s.bio s.totalMajors s.turnedPro s.nationality).golfers,
            ∀ t ∈ rest, r.name ≠ t.name := by
        intro r hr t ht
        simp only [iorGolfer, hfid, List.mem_append, List.mem_singleton] at hr
        rcases hr with hr | hr
        · exact hdisj r hr t (List.mem_cons_of_mem s ht)
        · rw [hr]
          exact hs t ht
      obtain ⟨dbr, h1, h2, h3, h4, h5⟩ :=
        ih (iorGolfer now db s.name s.bio s.totalMajors s.turnedPro s.nationality) hrest hdisj1
      have hior : (iorGolfer now db s.name s.bio s.totalMajors s.turnedPro s.nationality).golfers
          = db.golfers
            ++ [⟨db.nextGid, s.name, s.bio, s.totalMajors, s.turnedPro, s.nationality, now, now⟩] := by
        simp only [iorGolfer]
        rw [hfid]
      refine ⟨dbr, ?_, ?_, ?_, ?_, ?_⟩
      · simpa only [List.map_cons, seedFold, insJGolfer] using h1
      · rw [h2, hior]
        simp [projG]
      · rw [h3]; rfl
      · rw [h4]; rfl
      · rw [h5]; rfl

/-- On freshly cleared tables the built-in fallback dataset inserts
without conflicts: seeding succeeds and the tables hold exactly the
default rows (up to ids and timestamps), and the audit log is
untouched. -/
theorem insert_initial_data_clear (now : String) (ls : List LogRow) (nt ng : Nat) :
    (insert_initial_data now ⟨[], [], ls, nt, ng⟩).map
        (fun d => d.tournaments.map projT) = .ok defaultTournaments
    ∧ (insert_initial_data now ⟨[], [], ls, nt, ng⟩).map
        (fun d => d.golfers.map projG) = .ok defaultGolfersProj
    ∧ (insert_initial_data now ⟨[], [], ls, nt, ng⟩).map
        (fun d => d.adminLogs) = .ok ls :=
  ⟨rfl, rfl, rfl⟩

/-! ## Claims -/

/-- C1, counterexample: on an empty tournament table the stats
endpoint's minimum-score field is SQL NULL (`none`), not the literal
`0` the claim asserts. -/
theorem C1_counterexample :
    (get_tournament_stats emptyDB).bestScore = none
    ∧ (get_tournament_stats emptyDB).bestScore ≠ some 0 := by decide

/-- C1, amended: `stats` on a database with no tournament rows returns
total_years = 0, unique_winners = 0, best_score = NULL (a null/absent
value, not the literal 0), most_wins = 0 and most_wins_golfer = "". -/
theorem C1_stats_empty (db : DB) (h : db.tournaments = []) :
    get_tournament_stats db = ⟨0, 0, none, 0, ""⟩ := by
  simp [get_tournament_stats, mostWinsRow, h]

/-- C1, witness: the amended statement at the empty database. -/
theorem C1_stats_empty_witness :
    emptyDB.tournaments = [] ∧ get_tournament_stats emptyDB = ⟨0, 0, none, 0, ""⟩ :=
  ⟨rfl, C1_stats_empty emptyDB rfl⟩

/-- C4: any admin endpoint called with a username or password that does
not match the configured identity (the password compared through its
hash, as the code does) returns Unauthorized and leaves the database —
tables and audit log alike — exactly as it was. -/
theorem C4_unauthorized_no_mutation (hash : String → String) (c : Credentials)
    (hbad : c.username ≠ ADMIN_USERNAME ∨ hash c.password ≠ hash ADMIN_PASSWORD)
    (t : Tournament) (g : Golfer) (year : Int) (now : String)
    (file : Option FileContent) (db : DB) :
    add_tournament hash c t now db = (.error .unauthorized, db)
    ∧ add_or_update_golfer hash c g now db = (.error .unauthorized, db)
    ∧ delete_tournament hash c year now db = (.error .unauthorized, db)
    ∧ reload_data_from_json hash c now file db = (.error .unauthorized, db)
    ∧ export_data_to_json hash c now db = (.error .unauthorized, db)
    ∧ get_admin_logs hash c db = (.error .unauthorized, db) := by
  have hv : verify_admin hash c = false := by
    unfold verify_admin
    rcases hbad with h | h <;> simp [h]
  refine ⟨?_, ?_, ?_, ?_, ?_, ?_⟩ <;>
    simp [add_tournament, add_or_update_golfer, delete_tournament,
      reload_data_from_json, export_data_to_json, get_admin_logs, hv]

/-- C4, witness: a wrong password on the tournament-upsert endpoint. -/
theorem C4_unauthorized_no_mutation_witness :
    (badCreds.username ≠ ADMIN_USERNAME ∨ hashId badCreds.password ≠ hashId ADMIN_PASSWORD)
    ∧ add_tournament hashId badCreds ⟨2024, "X", 1, 1, "N"⟩ "t1" emptyDB
        = (.error .unauthorized, emptyDB) :=
  ⟨by decide,
   (C4_unauthorized_no_mutation hashId badCreds (by decide) ⟨2024, "X", 1, 1, "N"⟩
      ⟨"X", none, none, none, none⟩ 2024 "t1" none emptyDB).1⟩

/-- C7: for a name with no golfer row, `GET /golfers/{name}` either
synthesizes the placeholder record — id 0, empty bio/nationality, and
total majors equal to the number of tournaments won — when the name is
a tournament winner, or fails with NotFound when it is not. -/
theorem C7_placeholder_golfer (db : DB) (name : String)
    (hno : db.golfers.find? (fun g => g.name = name) = none) :
    (db.tournaments.any (fun r => r.winner = name) = true →
      get_golfer_by_name name db =
        .ok ⟨0, name, none, some ((winsOf db name).length : Int), none, none,
             winsOf db name, "", ""⟩
      ∧ (winsOf db name).length
          = (db.tournaments.filter (fun r => r.winner = name)).length)
    ∧ (db.tournaments.any (fun r => r.winner = name) = false →
      get_golfer_by_name name db = .error (.notFound "Golfer not found")) := by
  constructor
  · intro hw
    constructor
    · simp [get_golfer_by_name, hno, hw, pyOr]
    · unfold winsOf
      rw [(List.perm_insertionSort _ _).length_eq, List.length_map]
  · intro hw
    simp [get_golfer_by_name, hno, hw]

/-- C7, witness: "Tiger Woods" appears only as a winner in `dbTiger`. -/
theorem C7_placeholder_golfer_witness :
    dbTiger.golfers.find? (fun g => g.name = "Tiger Woods") = none
    ∧ get_golfer_by_name "Tiger Woods" dbTiger =
        .ok ⟨0, "Tiger Woods", none, some ((winsOf dbTiger "Tiger Woods").length : Int),
             none, none, winsOf dbTiger "Tiger Woods", "", ""⟩ :=
  ⟨rfl, ((C7_placeholder_golfer dbTiger "Tiger Woods" rfl).1 (by decide)).1⟩

/-- C10: a successful export leaves both tables untouched and appends
exactly one `EXPORT_DATA` entry to the audit log. -/
theorem C10_export_logs_only (hash : String → String) (c : Credentials) (now : String)
    (db : DB) (hcred : verify_admin hash c = true) :
    (export_data_to_json hash c now db).1 = .ok (exportPayload db)
    ∧ (export_data_to_json hash c now db).2.tournaments = db.tournaments
    ∧ (export_data_to_json hash c now db).2.golfers = db.golfers
    ∧ (export_data_to_json hash c now db).2.adminLogs
        = db.adminLogs ++ [⟨"EXPORT_DATA", exportDetail db, now⟩] := by
  simp [export_data_to_json, log_admin_action, hcred]

/-- C10, witness: a concrete export run with valid credentials. -/
theorem C10_export_logs_only_witness :
    verify_admin hashId goodCreds = true
    ∧ (export_data_to_json hashId goodCreds "t1" dbTiger).2.adminLogs
        = dbTiger.adminLogs ++ [⟨"EXPORT_DATA", exportDetail dbTiger, "t1"⟩] :=
  ⟨by decide, (C10_export_logs_only hashId goodCreds "t1" dbTiger (by decide)).2.2.2⟩

/-! ### Upsert support lemmas -/

/-- With valid credentials the tournament upsert commits: the table
becomes `updTournaments`, the counter advances on insert, and the
action is logged. -/
theorem add_tournament_snd (hash : String → String) (c : Credentials) (t : Tournament)
    (now : String) (db : DB) (hcred : verify_admin hash c = true) :
    (add_tournament hash c t now db).2
      = log_admin_action now
          (if db.tournaments.any (fun r => r.year = t.year) then "UPDATE" else "INSERT")
          (tournamentDetail t)
          { db with
              tournaments := updTournaments t now db
              nextTid := if db.tournaments.any (fun r => r.year = t.year) then db.nextTid
                         else db.nextTid + 1 } := by
  simp only [add_tournament, hcred, if_true]
  cases (updTournaments t now db).find? (fun r => r.year = t.year) <;> rfl

/-- The golfer analogue of `add_tournament_snd`. -/
theorem add_golfer_snd (hash : String → String) (c : Credentials) (g : Golfer)
    (now : String) (db : DB) (hcred : verify_admin hash c = true) :
    (add_or_update_golfer hash c g now db).2
      = log_admin_action now
          (if db.golfers.any (fun r => r.name = g.name) then "UPDATE" else "INSERT")
          ("Golfer: " ++ g.name)
          { db with
              golfers := updGolfers g now db
              nextGid := if db.golfers.any (fun r => r.name = g.name) then db.nextGid
                         else db.nextGid + 1 } := by
  simp only [add_or_update_golfer, hcred, if_true]
  cases (updGolfers g now db).find? (fun r => r.name = g.name) <;> rfl

/-- After the upsert branch runs, the table always holds a row for the
submitted year carrying the submitted field values. -/
theorem find?_updTournaments (t : Tournament) (now : String) (db : DB) :
    ∃ row, (updTournaments t now db).find? (fun r => r.year = t.year) = some row
      ∧ row.year = t.year ∧ row.winner = t.winner ∧ row.score = t.score
      ∧ row.toPar = t.toPar ∧ row.nationality = t.nationality := by
  unfold updTournaments
  cases hex : db.tournaments.any (fun r => r.year = t.year) with
  | true =>
      rw [if_pos rfl]
      rw [find?_map_updateIf (fun r => r.year = t.year) (updTRow t now)
        (fun a ha => by simpa [updTRow] using ha)]
      cases hfind : db.tournaments.find? (fun r => r.year = t.year) with
      | none =>
          rw [List.find?_eq_none] at hfind
          rw [List.any_eq_true] at hex
          obtain ⟨r, hr, hy⟩ := hex
          exact absurd hy (hfind r hr)
      | some r0 =>
          refine ⟨updTRow t now r0, rfl, ?_, rfl, rfl, rfl, rfl⟩
          have := List.find?_some hfind
          simpa [updTRow] using this
  | false =>
      rw [if_neg (by simp)]
      rw [List.find?_append]
      have hnone : db.tournaments.find? (fun r => r.year = t.year) = none := by
        rw [List.find?_eq_none]
        rw [List.any_eq_false] at hex
        exact hex
      rw [hnone, List.find?_singleton]
      refine ⟨newTRow t now db.nextTid, ?_, rfl, rfl, rfl, rfl, rfl⟩
      simp [newTRow]

/-- The golfer analogue of `find?_updTournaments`. -/
theorem find?_updGolfers (g : Golfer) (now : String) (db : DB) :
    ∃ row, (updGolfers g now db).find? (fun r => r.name = g.name) = some row
      ∧ row.name = g.name ∧ row.bio = g.bio ∧ row.totalMajors = g.totalMajors
      ∧ row.turnedPro = g.turnedPro ∧ row.nationality = g.nationality := by
  unfold updGolfers
  cases hex : db.golfers.any (fun r => r.name = g.name) with
  | true =>
      rw [if_pos rfl]
      rw [find?_map_updateIf (fun r => r.name = g.name) (updGRow g now)
        (fun a ha => by simpa [updGRow] using ha)]
      cases hfind : db.golfers.find? (fun r => r.name = g.name) with
      | none =>
          rw [List.find?_eq_none] at hfind
          rw [List.any_eq_true] at hex
          obtain ⟨r, hr, hy⟩ := hex
          exact absurd hy (hfind r hr)
      | some r0 =>
          refine ⟨updGRow g now r0, rfl, ?_, rfl, rfl, rfl, rfl⟩
          have := List.find?_some hfind
          simpa [updGRow] using this
  | false =>
      rw [if_neg (by simp)]
      rw [List.find?_append]
      have hnone : db.golfers.find? (fun r => r.name = g.name) = none := by
        rw [List.find?_eq_none]
        rw [List.any_eq_false] at hex
        exact hex
      rw [hnone, List.find?_singleton]
      refine ⟨newGRow g now db.nextGid, ?_, rfl, rfl, rfl, rfl, rfl⟩
      simp [newGRow]

/-- `winsOf` reads only the tournament table. -/
theorem winsOf_congr (db db' : DB) (h : db'.tournaments = db.tournaments)
    (name : String) : winsOf db' name = winsOf db name := by
  unfold winsOf
  rw [h]

/-- C5, counterexample: the golfer upsert/get round-trip fails for
`total_majors = 0` when the golfer has a tournament win: the submitted
`0` reads back as the win count `1`. -/
theorem C5_counterexample :
    gZeroMajors.totalMajors = some 0
    ∧ get_golfer_by_name "Tiger Woods"
        (add_or_update_golfer hashId goodCreds gZeroMajors "t1" dbTiger).2
      = .ok ⟨1, "Tiger Woods", none, some 1, none, none, [2019], "t1", "t1"⟩
    ∧ (some (1 : Int)) ≠ some 0 := by decide

/-- C5, amended: after a valid upsert, get-by-key returns the submitted
values for every tournament field and for the golfer fields bio,
turned_pro and nationality; the golfer total_majors field reads back
through Python's `or`, i.e. as submitted when nonzero and non-null, and
as the golfer's Masters-wins count when the submitted value is 0 or
null. -/
theorem C5_roundtrip (hash : String → String) (c : Credentials) (now : String)
    (db : DB) (hcred : verify_admin hash c = true) :
    (∀ t : Tournament, ∃ r : TournamentResponse,
        get_tournament_by_year t.year (add_tournament hash c t now db).2 = .ok r
        ∧ r.winner = t.winner ∧ r.score = t.score ∧ r.toPar = t.toPar
        ∧ r.nationality = t.nationality)
    ∧ (∀ g : Golfer, ∃ r : GolferResponse,
        get_golfer_by_name g.name (add_or_update_golfer hash c g now db).2 = .ok r
        ∧ r.bio = g.bio ∧ r.turnedPro = g.turnedPro ∧ r.nationality = g.nationality
        ∧ r.mastersWins = winsOf db g.name
        ∧ r.totalMajors = some (pyOr g.totalMajors (winsOf db g.name).length)) := by
  constructor
  · intro t
    obtain ⟨row, hfind, hy, hw, hs, hp, hn⟩ := find?_updTournaments t now db
    have h2 := add_tournament_snd hash c t now db hcred
    have htf : (add_tournament hash c t now db).2.tournaments.find?
        (fun r => r.year = t.year) = some row := by
      rw [h2]; exact hfind
    refine ⟨toTResp row, ?_, hw, hs, hp, hn⟩
    simp only [get_tournament_by_year, htf]
  · intro g
    obtain ⟨row, hfind, hnm, hb, hm, hp, hn⟩ := find?_updGolfers g now db
    have h2 := add_golfer_snd hash c g now db hcred
    have hgf : (add_or_update_golfer hash c g now db).2.golfers.find?
        (fun r => r.name = g.name) = some row := by
      rw [h2]; exact hfind
    have hwins : winsOf (add_or_update_golfer hash c g now db).2 g.name
        = winsOf db g.name := by
      rw [h2]; rfl
    refine ⟨⟨row.id, row.name, row.bio,
             some (pyOr row.totalMajors (winsOf db g.name).length),
             row.turnedPro, row.nationality, winsOf db g.name,
             row.createdAt, row.updatedAt⟩, ?_, hb, hp, hn, rfl, by rw [hm]⟩
    simp only [get_golfer_by_name, hgf, hwins]

/-- C5, witness: a concrete tournament upsert/get round-trip. -/
theorem C5_roundtrip_witness :
    verify_admin hashId goodCreds = true
    ∧ ∃ r : TournamentResponse,
        get_tournament_by_year (2025 : Int)
            (add_tournament hashId goodCreds ⟨2025, "New Winner", 270, -18, "USA"⟩ "t1" dbTiger).2
          = .ok r
        ∧ r.winner = "New Winner" ∧ r.score = 270 ∧ r.toPar = -18
        ∧ r.nationality = "USA" :=
  ⟨by decide,
   (C5_roundtrip hashId goodCreds "t1" dbTiger (by decide)).1
     ⟨2025, "New Winner", 270, -18, "USA"⟩⟩

/-- C6: with the at-most-one-row-per-year invariant, a tournament
upsert on an existing year logs UPDATE and keeps the table size; on a
new year it logs INSERT and grows the table by one; in both cases
exactly one row holds the submitted year afterwards and the invariant
is preserved. -/
theorem C6_upsert_invariant (hash : String → String) (c : Credentials) (t : Tournament)
    (now : String) (db : DB) (hcred : verify_admin hash c = true)
    (hinv : db.tournaments.Pairwise (fun a b => a.year ≠ b.year)) :
    (add_tournament hash c t now db).2.tournaments.Pairwise (fun a b => a.year ≠ b.year)
    ∧ ((add_tournament hash c t now db).2.tournaments.filter
        (fun r => r.year = t.year)).length = 1
    ∧ (db.tournaments.any (fun r => r.year = t.year) = true →
        (add_tournament hash c t now db).2.adminLogs
            = db.adminLogs ++ [⟨"UPDATE", tournamentDetail t, now⟩]
        ∧ (add_tournament hash c t now db).2.tournaments.length
            = db.tournaments.length)
    ∧ (db.tournaments.any (fun r => r.year = t.year) = false →
        (add_tournament hash c t now db).2.adminLogs
            = db.adminLogs ++ [⟨"INSERT", tournamentDetail t, now⟩]
        ∧ (add_tournament hash c t now db).2.tournaments.length
            = db.tournaments.length + 1) := by
  have h2 := add_tournament_snd hash c t now db hcred
  have htt : (add_tournament hash c t now db).2.tournaments = updTournaments t now db := by
    rw [h2]
    rfl
  have hlogs : (add_tournament hash c t now db).2.adminLogs
      = db.adminLogs
        ++ [⟨(if db.tournaments.any (fun r => r.year = t.year) then "UPDATE" else "INSERT"),
             tournamentDetail t, now⟩] := by
    rw [h2]
    rfl
  cases hex : db.tournaments.any (fun r => r.year = t.year) with
  | true =>
      have hupd : updTournaments t now db
          = db.tournaments.map (fun r => if r.year = t.year then updTRow t now r else r) := by
        simp [updTournaments, hex]
      have hyear : ∀ a : TournamentRow,
          (if a.year = t.year then updTRow t now a else a).year = a.year := by
        intro a
        by_cases h : a.year = t.year <;> simp [updTRow, h]
      refine ⟨?_, ?_, ?_, ?_⟩
      · rw [htt, hupd]
        exact pairwise_key_map (fun r => r.year)
          (fun r => if r.year = t.year then updTRow t now r else r) hyear
          db.tournaments hinv
      · rw [htt, hupd]
        have heq : ((db.tournaments.map
              (fun r => if r.year = t.year then updTRow t now r else r)).filter
            (fun r => r.year = t.year)).length
            = ((db.tournaments.filter (fun r => r.year = t.year))).length := by
          rw [List.filter_map, List.length_map]
          congr 1
          apply List.filter_congr
          intro a _
          simp [Function.comp, hyear a]
        rw [heq]
        have hle := filter_key_length_le_one (fun r => r.year) db.tournaments hinv t.year
        have hge := filter_key_length_pos (fun r => r.year) db.tournaments t.year
          (by rw [List.any_eq_true] at hex
              obtain ⟨r, hr, hy⟩ := hex
              exact ⟨r, hr, by simpa using hy⟩)
        exact le_antisymm hle hge
      · intro _
        constructor
        · rw [hlogs, hex]
          rfl
        · rw [htt, hupd, List.length_map]
      · simp [hex]
  | false =>
      have hupd : updTournaments t now db
          = db.tournaments ++ [newTRow t now db.nextTid] := by
        simp [updTournaments, hex]
      have hnot : ∀ r ∈ db.tournaments, r.year ≠ t.year := by
        rw [List.any_eq_false] at hex
        intro r hr
        simpa using hex r hr
      refine ⟨?_, ?_, ?_, ?_⟩
      · rw [htt, hupd, List.pairwise_append]
        refine ⟨hinv, by simp, ?_⟩
        intro a ha b hb
        rw [List.mem_singleton] at hb
        rw [hb]
        exact hnot a ha
      · rw [htt, hupd, List.filter_append]
        have h1 : db.tournaments.filter (fun r => r.year = t.year) = [] := by
          rw [List.filter_eq_nil_iff]
          intro a ha
          simpa using hnot a ha
        rw [h1]
        simp [newTRow]
      · simp [hex]
      · intro _
        constructor
        · rw [hlogs, hex]
          rfl
        · rw [htt, hupd, List.length_append]
          rfl

/-- C6, witness: the INSERT branch on a concrete database. -/
theorem C6_upsert_invariant_witness :
    verify_admin hashId goodCreds = true
    ∧ dbTiger.tournaments.Pairwise (fun a b => a.year ≠ b.year)
    ∧ ((add_tournament hashId goodCreds ⟨2024, "X", 1, 1, "N"⟩ "t1" dbTiger).2.tournaments.filter
        (fun r => r.year = (2024 : Int))).length = 1 :=
  ⟨by decide, by decide,
   (C6_upsert_invariant hashId goodCreds ⟨2024, "X", 1, 1, "N"⟩ "t1" dbTiger
      (by decide) (by decide)).2.1⟩

/-- C3, counterexample: a failing record aborts startup seeding rather
than being skipped.  With `fileConflict` the partial insert of year
2024 makes the fallback's plain INSERT collide and `init_database`
raises, aborting startup; with `fileAborted` the well-formed record for
year 9999 sitting after the failing record is never inserted — the
batch is aborted, not continued. -/
theorem C3_counterexample :
    init_database "t0" (some (.parsed fileConflict)) emptyDB = .error ()
    ∧ (load_from_json "t0" (.parsed fileAborted) emptyDB).map
        (fun d => (d.tournaments.filter (fun r => r.year = 9999)).length) = .ok 0 := by
  decide

/-- C3, amended: a wholesale parse failure falls back to the built-in
dataset; a failure on an individual record aborts the remainder of the
batch (later records and all golfers are never processed) and runs the
built-in fallback on top of the partial inserts; on an empty database
an unparseable file still lets startup succeed with exactly the default
rows.  (The fallback itself can raise on key conflicts with partial
inserts, in which case startup aborts — see the counterexample.) -/
theorem C3_seeding_behavior (now : String) :
    (∀ db : DB, load_from_json now .unparseable db = insert_initial_data now db)
    ∧ (∀ (db dbp : DB) (pre : List JTournament) (bad : JTournament)
        (rest : List JTournament) (gs : List JGolfer),
        seedFold (insJTournament now) pre db = .ok dbp →
        insJTournament now dbp bad = .error () →
        load_from_json now (.parsed ⟨pre ++ bad :: rest, gs⟩) db
          = insert_initial_data now dbp)
    ∧ (∀ (ls : List LogRow) (nt ng : Nat),
        ∃ dbr, init_database now (some .unparseable) ⟨[], [], ls, nt, ng⟩ = .ok dbr
          ∧ dbr.tournaments.map projT = defaultTournaments
          ∧ dbr.golfers.map projG = defaultGolfersProj) := by
  refine ⟨fun _ => rfl, ?_, ?_⟩
  · intro db dbp pre bad rest gs hpre hbad
    show (match seedFold (insJTournament now) (pre ++ bad :: rest) db with
          | .error dbx => insert_initial_data now dbx
          | .ok db1 =>
              match seedFold (insJGolfer now) gs db1 with
              | .error dbx => insert_initial_data now dbx
              | .ok db2 => .ok db2)
        = insert_initial_data now dbp
    rw [seedFold_append, hpre]
    show (match (match insJTournament now dbp bad with
                 | .ok db' => seedFold (insJTournament now) rest db'
                 | .error _ => .error dbp) with
          | .error dbx => insert_initial_data now dbx
          | .ok db1 =>
              match seedFold (insJGolfer now) gs db1 with
              | .error dbx => insert_initial_data now dbx
              | .ok db2 => .ok db2)
        = insert_initial_data now dbp
    rw [hbad]
  · intro ls nt ng
    obtain ⟨hT, hG, _⟩ := insert_initial_data_clear now ls nt ng
    cases hr : insert_initial_data now ⟨[], [], ls, nt, ng⟩ with
    | error e =>
        rw [hr] at hT
        simp [Except.map] at hT
    | ok dbr =>
        refine ⟨dbr, ?_, ?_, ?_⟩
        · show load_from_json now .unparseable ⟨[], [], ls, nt, ng⟩ = .ok dbr
          exact hr
        · rw [hr] at hT
          simpa [Except.map] using hT
        · rw [hr] at hG
          simpa [Except.map] using hG

/-- C3, witness: the per-record-failure clause at a concrete file. -/
theorem C3_seeding_behavior_witness :
    seedFold (insJTournament "t0") [rec2024] emptyDB = .ok dbPartial
    ∧ insJTournament "t0" dbPartial badRecord = .error ()
    ∧ load_from_json "t0" (.parsed ⟨[rec2024] ++ badRecord :: [], []⟩) emptyDB
        = insert_initial_data "t0" dbPartial :=
  ⟨by decide, by decide,
   (C3_seeding_behavior "t0").2.1 emptyDB dbPartial [rec2024] badRecord [] []
     (by decide) (by decide)⟩

/-- C2, counterexample: a reload over an unparseable data file does not
surface an Internal error — the seeding fallback absorbs the parse
failure and the endpoint reports success. -/
theorem C2_counterexample :
    (reload_data_from_json hashId goodCreds "t1" (some .unparseable) emptyDB).1
      = .ok "Data successfully reloaded from masters_data.json" := by
  decide

/-- C2, amended: bulk reload fails with NotFound when the file is
absent; when present it clears both tables and re-runs the
seeding-from-file logic; only an exception escaping that seeding (the
fallback included) surfaces as an Internal error with the database
unchanged — a parse failure in particular is absorbed by the fallback,
which leaves the default dataset and reports success. -/
theorem C2_reload_behavior (hash : String → String) (c : Credentials) (now : String)
    (db : DB) (hcred : verify_admin hash c = true) :
    reload_data_from_json hash c now none db
      = (.error (.notFound "masters_data.json file not found"), db)
    ∧ (∀ f : FileContent, load_from_json now f (clearTables db) = .error () →
        reload_data_from_json hash c now (some f) db
          = (.error (.internal "Error reloading data"), db))
    ∧ (∀ (f : FileContent) (db1 : DB),
        load_from_json now f (clearTables db) = .ok db1 →
        reload_data_from_json hash c now (some f) db
          = (.ok "Data successfully reloaded from masters_data.json",
             log_admin_action now "RELOAD_DATA"
               "Reloaded all data from masters_data.json" db1))
    ∧ (∃ dbr, reload_data_from_json hash c now (some .unparseable) db
          = (.ok "Data successfully reloaded from masters_data.json", dbr)
        ∧ dbr.tournaments.map projT = defaultTournaments
        ∧ dbr.golfers.map projG = defaultGolfersProj) := by
  refine ⟨?_, ?_, ?_, ?_⟩
  · simp [reload_data_from_json, hcred]
  · intro f h
    simp [reload_data_from_json, hcred, h]
  · intro f db1 h
    simp [reload_data_from_json, hcred, h]
  · obtain ⟨hT, hG, _⟩ := insert_initial_data_clear now db.adminLogs db.nextTid db.nextGid
    cases hr : insert_initial_data now ⟨[], [], db.adminLogs, db.nextTid, db.nextGid⟩ with
    | error e =>
        rw [hr] at hT
        simp [Except.map] at hT
    | ok dbr =>
        have hload : load_from_json now .unparseable (clearTables db) = .ok dbr := by
          show insert_initial_data now (clearTables db) = .ok dbr
          exact hr
        refine ⟨log_admin_action now "RELOAD_DATA"
          "Reloaded all data from masters_data.json" dbr, ?_, ?_, ?_⟩
        · simp [reload_data_from_json, hcred, hload]
        · show dbr.tournaments.map projT = defaultTournaments
          rw [hr] at hT
          simpa [Except.map] using hT
        · show dbr.golfers.map projG = defaultGolfersProj
          rw [hr] at hG
          simpa [Except.map] using hG

/-- C2, witness: the NotFound clause at a concrete state. -/
theorem C2_reload_behavior_witness :
    verify_admin hashId goodCreds = true
    ∧ reload_data_from_json hashId goodCreds "t1" none emptyDB
        = (.error (.notFound "masters_data.json file not found"), emptyDB) :=
  ⟨by decide, (C2_reload_behavior hashId goodCreds "t1" emptyDB (by decide)).1⟩

/-- C8, counterexample: the search `"tiger"` returns the tournament won
by "Tiger Woods" even though "tiger" is not a substring of the winner
name — the match is SQLite `LIKE`, which is ASCII-case-insensitive, not
literal substring containment. -/
theorem C8_counterexample :
    search_tournaments "tiger" dbTiger
      = [⟨1, 2019, "Tiger Woods", 275, -13, "USA", "t0", "t0"⟩]
    ∧ containsSub "tiger" "Tiger Woods" = false := by
  decide

/-- C8, amended: input parsing as an integer selects exactly the
tournaments with that year; any other input never errors and selects
exactly the tournaments whose winner matches `LIKE '%q%'`, ordered by
year descending — for a wildcard-free input that LIKE test is exactly
ASCII-case-insensitive substring containment. -/
theorem C8_search (q : String) (db : DB) :
    (∀ y : Int, pyIntParse q = some y →
      ∀ resp : TournamentResponse,
        resp ∈ search_tournaments q db
          ↔ ∃ row ∈ db.tournaments, row.year = y ∧ resp = toTResp row)
    ∧ (pyIntParse q = none →
        (∀ resp : TournamentResponse,
          resp ∈ search_tournaments q db
            ↔ ∃ row ∈ db.tournaments,
                likeContains q row.winner = true ∧ resp = toTResp row)
        ∧ (search_tournaments q db).Pairwise (fun a b => b.year ≤ a.year)
        ∧ (plainChars q.toList →
            ∀ s : String, likeContains q s = containsSubCI q s)) := by
  constructor
  · intro y hy resp
    simp only [search_tournaments, hy, List.mem_map, List.mem_filter,
      decide_eq_true_eq]
    constructor
    · rintro ⟨row, ⟨hrow, hyear⟩, rfl⟩
      exact ⟨row, hrow, hyear, rfl⟩
    · rintro ⟨row, hrow, hyear, rfl⟩
      exact ⟨row, ⟨hrow, hyear⟩, rfl⟩
  · intro hnone
    refine ⟨?_, ?_, ?_⟩
    · intro resp
      simp only [search_tournaments, hnone, List.mem_map]
      constructor
      · rintro ⟨row, hrow, rfl⟩
        rw [(List.perm_insertionSort _ _).mem_iff, List.mem_filter] at hrow
        exact ⟨row, hrow.1, hrow.2, rfl⟩
      · rintro ⟨row, hrow, hlike, rfl⟩
        refine ⟨row, ?_, rfl⟩
        rw [(List.perm_insertionSort _ _).mem_iff, List.mem_filter]
        exact ⟨hrow, hlike⟩
    · haveI : IsTotal TournamentRow (fun a b => b.year ≤ a.year) :=
        ⟨fun a b => le_total b.year a.year⟩
      haveI : IsTrans TournamentRow (fun a b => b.year ≤ a.year) :=
        ⟨fun a b c hab hbc => le_trans hbc hab⟩
      have hs := List.sorted_insertionSort (fun a b => b.year ≤ a.year)
        (db.tournaments.filter (fun r => likeContains q r.winner))
      simp only [search_tournaments, hnone]
      rw [List.pairwise_map]
      exact hs
    · intro hp s
      exact likeContains_eq_containsSubCI q s hp

/-- C8, witness: the LIKE clause of the amended statement at the
non-numeric query "Tiger". -/
theorem C8_search_witness :
    pyIntParse "Tiger" = none
    ∧ (toTResp ⟨1, 2019, "Tiger Woods", 275, -13, "USA", "t0", "t0"⟩
          ∈ search_tournaments "Tiger" dbTiger
        ↔ ∃ row ∈ dbTiger.tournaments,
            likeContains "Tiger" row.winner = true
            ∧ toTResp ⟨1, 2019, "Tiger Woods", 275, -13, "USA", "t0", "t0"⟩
                = toTResp row) :=
  ⟨by decide, (((C8_search "Tiger" dbTiger).2 (by decide)).1 _)⟩

/-- C9: with key-distinct tables (which the store's UNIQUE constraints
guarantee), reloading from the export payload succeeds and reproduces
the tournament and golfer rows exactly, up to order and ignoring
surrogate ids and timestamps. -/
theorem C9_export_reload_roundtrip (hash : String → String) (c : Credentials)
    (now : String) (db : DB) (hcred : verify_admin hash c = true)
    (huy : db.tournaments.Pairwise (fun a b => a.year ≠ b.year))
    (hun : db.golfers.Pairwise (fun a b => a.name ≠ b.name)) :
    ∃ dbr, reload_data_from_json hash c now (some (.parsed (exportPayload db))) db
        = (.ok "Data successfully reloaded from masters_data.json", dbr)
      ∧ (dbr.tournaments.map projT).Perm (db.tournaments.map projT)
      ∧ (dbr.golfers.map projG).Perm (db.golfers.map projG) := by
  have hpermT : (List.insertionSort (fun a b => b.year ≤ a.year) db.tournaments).Perm
      db.tournaments := List.perm_insertionSort _ _
  have hpermG : (List.insertionSort (fun a b => a.name ≤ b.name) db.golfers).Perm
      db.golfers := List.perm_insertionSort _ _
  have hpwT : (List.insertionSort (fun a b => b.year ≤ a.year) db.tournaments).Pairwise
      (fun a b => a.year ≠ b.year) :=
    (hpermT.pairwise_iff (fun h => h.symm)).mpr huy
  have hpwG : (List.insertionSort (fun a b => a.name ≤ b.name) db.golfers).Pairwise
      (fun a b => a.name ≠ b.name) :=
    (hpermG.pairwise_iff (fun h => h.symm)).mpr hun
  obtain ⟨dbr1, hT1, hT2, hT3, hT4, hT5⟩ :=
    seedFold_toJT now (List.insertionSort (fun a b => b.year ≤ a.year) db.tournaments)
      (clearTables db) hpwT
      (by intro r hr _ _; simp [clearTables] at hr)
  obtain ⟨dbr2, hG1, hG2, hG3, hG4, hG5⟩ :=
    seedFold_toJG now (List.insertionSort (fun a b => a.name ≤ b.name) db.golfers)
      dbr1 hpwG
      (by intro r hr _ _
          rw [hT3] at hr
          simp [clearTables] at hr)
  have hload : load_from_json now (.parsed (exportPayload db)) (clearTables db)
      = .ok dbr2 := by
    show (match seedFold (insJTournament now) (exportPayload db).tournaments
            (clearTables db) with
          | .error dbx => insert_initial_data now dbx
          | .ok db1 =>
              match seedFold (insJGolfer now) (exportPayload db).golfers db1 with
              | .error dbx => insert_initial_data now dbx
              | .ok db2 => .ok db2)
        = .ok dbr2
    rw [show (exportPayload db).tournaments
        = (List.insertionSort (fun a b => b.year ≤ a.year) db.tournaments).map toJT
        from rfl]
    rw [hT1]
    show (match seedFold (insJGolfer now) (exportPayload db).golfers dbr1 with
          | .error dbx => insert_initial_data now dbx
          | .ok db2 => .ok db2)
        = .ok dbr2
    rw [show (exportPayload db).golfers
        = (List.insertionSort (fun a b => a.name ≤ b.name) db.golfers).map toJG
        from rfl]
    rw [hG1]
  refine ⟨log_admin_action now "RELOAD_DATA"
    "Reloaded all data from masters_data.json" dbr2, ?_, ?_, ?_⟩
  · simp [reload_data_from_json, hcred, hload]
  · show (dbr2.tournaments.map projT).Perm (db.tournaments.map projT)
    rw [hG3, hT2]
    rw [show (clearTables db).tournaments = [] from rfl]
    simpa using hpermT.map projT
  · show (dbr2.golfers.map projG).Perm (db.golfers.map projG)
    rw [hG2, hT3]
    rw [show (clearTables db).golfers = [] from rfl]
    simpa using hpermG.map projG

/-- C9, witness: the round-trip at a concrete one-row database. -/
theorem C9_export_reload_roundtrip_witness :
    verify_admin hashId goodCreds = true
    ∧ dbTiger.tournaments.Pairwise (fun a b => a.year ≠ b.year)
    ∧ dbTiger.golfers.Pairwise (fun a b => a.name ≠ b.name)
    ∧ ∃ dbr, reload_data_from_json hashId goodCreds "t9"
          (some (.parsed (exportPayload dbTiger))) dbTiger
        = (.ok "Data successfully reloaded from masters_data.json", dbr)
      ∧ (dbr.tournaments.map projT).Perm (dbTiger.tournaments.map projT)
      ∧ (dbr.golfers.map projG).Perm (dbTiger.golfers.map projG) :=
  ⟨by decide, by decide, by decide,
   C9_export_reload_roundtrip hashId goodCreds "t9" dbTiger
     (by decide) (by decide) (by decide)⟩
